import Mathlib

/-! GPS route tracker (`src/App.js`): distance engine and tracking controller.

A shallow embedding of the algorithmic core of `src/App.js`:

* `haversine` (lines 9-22), with JavaScript numbers read as real numbers; the
  rounding of IEEE doubles is outside the model, and `haversineOfA` keeps the `NaN`
  of `Math.sqrt` for the one place where rounding decides the result;
* the React state of `HomeScreen` (lines 27-36) as the record `HomeState`, and the
  handlers `startTracking`, `stopTracking`, `pauseTracking`, `resumeTracking`,
  `saveRoute` (lines 51-163) as functions on that record;
* the callback handed to `Location.watchPositionAsync` (lines 80-90 and 145-155) as
  `watchCallback`, whose first argument is the value of `previousLocation` that the
  closure captured when the subscription was created;
* `formatTime` (lines 165-170) on natural numbers.

Modelling conventions.  A `const [x, setX] = useState(..)` binding is a field of
`HomeState`; a setter call overwrites the field, a functional update
`setX(prev => ..)` reads the field of the state the update is applied to.  A
variable read inside a long-lived closure is the value that the closure captured.
The promise returned by `watchPositionAsync` is taken to resolve before the next
event, so that an asynchronous handler is one state transition.  The environment
delivers a tick only while `timerRef.current` holds an interval handle and a sample
only while a subscription is held in `locationSubscription`.
-/

namespace AiFigma

/-! ## Distance engine -/

/-- A position as found in `newLocation.coords`: degrees of latitude and longitude. -/
structure Coordinate where
  latitude : ℝ
  longitude : ℝ

/-- The two-argument arctangent `Math.atan2(y, x)` over the reals: the angle in
`(-π, π]` of the point `(x, y)`, and `0` at the origin. -/
noncomputable def atan2 (y x : ℝ) : ℝ :=
  if 0 < x then Real.arctan (y / x)
  else if x < 0 then
    if 0 ≤ y then Real.arctan (y / x) + Real.pi else Real.arctan (y / x) - Real.pi
  else if 0 < y then Real.pi / 2
  else if y < 0 then -(Real.pi / 2)
  else 0

/-- The intermediate value `a` of `haversine` (lines 11-18); `phi1`, `phi2`, `dphi`,
`dlambda` stand for the source's `φ1`, `φ2`, `Δφ`, `Δλ`. -/
noncomputable def haversineA (start end_ : Coordinate) : ℝ :=
  let phi1 := start.latitude * Real.pi / 180
  let phi2 := end_.latitude * Real.pi / 180
  let dphi := (end_.latitude - start.latitude) * Real.pi / 180
  let dlambda := (end_.longitude - start.longitude) * Real.pi / 180
  Real.sin (dphi / 2) * Real.sin (dphi / 2) +
    Real.cos phi1 * Real.cos phi2 *
    Real.sin (dlambda / 2) * Real.sin (dlambda / 2)

/-- The function `haversine` (lines 9-22): `R = 6371e3` metres,
`c = 2 * atan2(sqrt a, sqrt (1 - a))`, result `R * c`. -/
noncomputable def haversine (start end_ : Coordinate) : ℝ :=
  let R : ℝ := 6371000
  let a := haversineA start end_
  let c := 2 * atan2 (Real.sqrt a) (Real.sqrt (1 - a))
  R * c

/-- The function `Math.sqrt` with its failure kept: `none` stands for `NaN`, the result
for a negative argument. -/
noncomputable def sqrtJS (x : ℝ) : Option ℝ :=
  if x < 0 then none else some (Real.sqrt x)

/-- Lines 19-21 of `haversine` as a function of the value `a` that lines 16-18 have
computed, with `NaN` (`none`) propagated through `Math.atan2` and the products. -/
noncomputable def haversineOfA (a : ℝ) : Option ℝ :=
  match sqrtJS a, sqrtJS (1 - a) with
  | some y, some x => some (6371000 * (2 * atan2 y x))
  | _, _ => none

/-! ## Tracking controller -/

/-- The handle returned by `watchPositionAsync`. Its callback is a closure; the only
variable of the component that the closure reads is `previousLocation`, and
`captured` is the value it closed over. -/
structure Subscription where
  captured : Option Coordinate

/-- The state cells of `HomeScreen` (lines 27-36). `timerRef` is `true` when
`timerRef.current` holds an interval handle. -/
structure HomeState where
  location : Option Coordinate
  route : List Coordinate
  tracking : Bool
  paused : Bool
  locationSubscription : Option Subscription
  totalDistance : ℝ
  elapsedTime : Nat
  timerRef : Bool
  previousLocation : Option Coordinate

/-- The state at mount: the initial values passed to `useState` and `useRef`. -/
def initialState : HomeState where
  location := none
  route := []
  tracking := false
  paused := false
  locationSubscription := none
  totalDistance := 0
  elapsedTime := 0
  timerRef := false
  previousLocation := none

/-- The three-way status of the specification. -/
inductive TrackingState where
  | Idle
  | Active
  | Paused
  deriving DecidableEq, Repr

/-- The status as the screen distinguishes it (lines 202-219): Pause and Stop are
offered when `tracking && !paused`, Resume when `tracking && paused`, Start otherwise. -/
def status (st : HomeState) : TrackingState :=
  if st.tracking && !st.paused then TrackingState.Active
  else if st.tracking && st.paused then TrackingState.Paused
  else TrackingState.Idle

/-- The `disabled` property of the "Gem Rute" button (line 220): `disabled={tracking}`. -/
def saveDisabled (st : HomeState) : Bool :=
  st.tracking

/-- The interval callback (lines 68-70 and 133-135): `setElapsedTime(prevTime => prevTime + 1)`. -/
def timerCallback (st : HomeState) : HomeState :=
  { st with elapsedTime := st.elapsedTime + 1 }

/-- The callback handed to `watchPositionAsync` (lines 80-90 and 145-155). The test
`if (previousLocation)` and the first argument of `haversine` read the captured
variable `previousLocation`; the updates of `route` and `totalDistance` are functional
updates and read the current state. -/
noncomputable def watchCallback (previousLocation : Option Coordinate)
    (newLocation : Coordinate) (st : HomeState) : HomeState :=
  let st1 := { st with location := some newLocation }
  let st2 := { st1 with route := st1.route ++ [newLocation] }
  let st3 :=
    match previousLocation with
    | some p => { st2 with totalDistance := st2.totalDistance + haversine p newLocation }
    | none => st2
  { st3 with previousLocation := some newLocation }

/-- The handler `startTracking` (lines 51-97); `confirmed` tells whether the user chose
"Start" in the dialog ("Annuller" has no handler). -/
def startTracking (confirmed : Bool) (st : HomeState) : HomeState :=
  if confirmed then
    { st with
      tracking := true
      paused := false
      timerRef := if !st.timerRef then true else st.timerRef
      locationSubscription := some { captured := st.previousLocation } }
  else st

/-- The handler `stopTracking` (lines 99-112). -/
def stopTracking (st : HomeState) : HomeState :=
  match st.locationSubscription with
  | some _ =>
    { st with
      locationSubscription := none
      tracking := false
      paused := false
      timerRef := if st.timerRef then false else st.timerRef }
  | none => st

/-- The handler `pauseTracking` (lines 114-126). -/
def pauseTracking (st : HomeState) : HomeState :=
  match st.locationSubscription with
  | some _ =>
    { st with
      locationSubscription := none
      paused := true
      timerRef := if st.timerRef then false else st.timerRef }
  | none => st

/-- The handler `resumeTracking` (lines 128-158). -/
def resumeTracking (st : HomeState) : HomeState :=
  { st with
    paused := false
    timerRef := if !st.timerRef then true else st.timerRef
    locationSubscription := some { captured := st.previousLocation } }

/-- What a handler asks of the outside world. -/
inductive Effect where
  | alert (title message : String)
  | navigate (screen : String)
  deriving DecidableEq, Repr

/-- The handler `saveRoute` (lines 160-163): an alert and a navigation, no setter call. -/
def saveRoute (st : HomeState) : HomeState × List Effect :=
  (st, [Effect.alert "Rute gemt!" "Din rute er blevet gemt.", Effect.navigate "SaveScreen"])

/-- The mount effect (lines 38-49): with permission granted the current position is
stored in `location`. -/
def mountEffect (granted : Bool) (currentLocation : Coordinate) (st : HomeState) : HomeState :=
  if granted then { st with location := some currentLocation } else st

/-- What can happen to the screen. -/
inductive Event where
  | mount (granted : Bool) (currentLocation : Coordinate)
  | start (confirmed : Bool)
  | stop
  | pause
  | resume
  | save
  | tick
  | sample (newLocation : Coordinate)

/-- One event applied to the state. A tick reaches `timerCallback` only while the
interval is set, a sample reaches the callback of the held subscription only. -/
noncomputable def step (st : HomeState) : Event → HomeState
  | Event.mount granted currentLocation => mountEffect granted currentLocation st
  | Event.start confirmed => startTracking confirmed st
  | Event.stop => stopTracking st
  | Event.pause => pauseTracking st
  | Event.resume => resumeTracking st
  | Event.save => (saveRoute st).1
  | Event.tick => if st.timerRef then timerCallback st else st
  | Event.sample newLocation =>
    match st.locationSubscription with
    | some sub => watchCallback sub.captured newLocation st
    | none => st

/-- A sequence of events applied in order. -/
noncomputable def run (st : HomeState) (events : List Event) : HomeState :=
  events.foldl step st

/-- The accumulated distance the specification asks for after the samples `path`:
the sum of `haversine` over consecutive samples. -/
noncomputable def specTotalDistance : List Coordinate → ℝ
  | p :: q :: rest => haversine p q + specTotalDistance (q :: rest)
  | _ => 0

/-! ## Presentation -/

/-- The function `formatTime` (lines 165-170) on a non-negative integer number of seconds. -/
def formatTime (seconds : Nat) : String :=
  let hrs := seconds / 3600
  let mins := (seconds % 3600) / 60
  let secs := seconds % 60
  (if hrs > 0 then toString hrs ++ ":" else "") ++
    (if mins < 10 then "0" else "") ++ toString mins ++ ":" ++
    (if secs < 10 then "0" else "") ++ toString secs

/-- A number below one hundred written with exactly two decimal digits. -/
def twoDigits (k : Nat) : String :=
  String.mk [Nat.digitChar (k / 10), Nat.digitChar (k % 10)]

/-- The `H:MM:SS` rendering in the specification's words: the hours and their colon
only when the hours are not zero, then minutes and seconds with two digits each. -/
def renderHMS (h m s : Nat) : String :=
  (if h > 0 then Nat.repr h ++ ":" else "") ++ twoDigits m ++ ":" ++ twoDigits s

/-! ## Events and sample states used in the statements -/

/-- Ticks and samples: the two events that come from the environment, not from a button. -/
def Event.isTickOrSample : Event → Bool
  | Event.tick => true
  | Event.sample _ => true
  | _ => false

/-- The samples of the specification's scenario: `(0,0)`, `(0,0.001)`, `(0,0.002)`. -/
noncomputable def scenarioPath : List Coordinate :=
  [⟨0, 0⟩, ⟨0, 0.001⟩, ⟨0, 0.002⟩]

/-- An Active session: Start confirmed at mount state, one sample, one tick. -/
noncomputable def activeExample : HomeState :=
  run initialState [Event.start true, Event.sample ⟨0, 0⟩, Event.tick]

/-- A Paused session: Start confirmed at mount state, then Pause. -/
def pausedExample : HomeState :=
  pauseTracking (startTracking true initialState)

/-- The distance that a subscription whose callback captured `captured` adds for the
samples `samples`: every sample is measured from the captured position. -/
noncomputable def capturedDistance (captured : Option Coordinate) : List Coordinate → ℝ
  | [] => 0
  | s :: rest =>
    (match captured with
      | some p => haversine p s
      | none => 0) + capturedDistance captured rest

/-! ## Lemmas on the distance engine -/

/-- The haversine of the central angle lies between 0 and 1, for all latitudes `p`, `q`
and every half difference of longitude `y`. -/
theorem half_angle_bounds (p q y : ℝ) :
    0 ≤ Real.sin ((q - p) / 2) * Real.sin ((q - p) / 2) +
        Real.cos p * Real.cos q * Real.sin y * Real.sin y ∧
    Real.sin ((q - p) / 2) * Real.sin ((q - p) / 2) +
        Real.cos p * Real.cos q * Real.sin y * Real.sin y ≤ 1 := by
  have hu : Real.cos (q - p) = Real.cos q * Real.cos p + Real.sin q * Real.sin p :=
    Real.cos_sub q p
  have hv : Real.cos (q + p) = Real.cos q * Real.cos p - Real.sin q * Real.sin p :=
    Real.cos_add q p
  have hx : Real.sin ((q - p) / 2) * Real.sin ((q - p) / 2) = (1 - Real.cos (q - p)) / 2 := by
    have h := Real.cos_sq_add_sin_sq ((q - p) / 2)
    have h2 := Real.cos_two_mul ((q - p) / 2)
    have h3 : 2 * ((q - p) / 2) = q - p := by ring
    rw [h3] at h2
    nlinarith
  have hs0 : 0 ≤ Real.sin y * Real.sin y := mul_self_nonneg _
  have hs1 : Real.sin y * Real.sin y ≤ 1 := by
    have h := Real.sin_sq_add_cos_sq y
    nlinarith [sq_nonneg (Real.cos y)]
  have hu1 := Real.cos_le_one (q - p)
  have hu2 := Real.neg_one_le_cos (q - p)
  have hv1 := Real.cos_le_one (q + p)
  have hv2 := Real.neg_one_le_cos (q + p)
  have hc : Real.cos p * Real.cos q = (Real.cos (q - p) + Real.cos (q + p)) / 2 := by
    rw [hu, hv]; ring
  rw [show Real.sin ((q - p) / 2) * Real.sin ((q - p) / 2) +
        Real.cos p * Real.cos q * Real.sin y * Real.sin y
      = (1 - Real.cos (q - p)) / 2 +
        (Real.cos (q - p) + Real.cos (q + p)) / 2 * (Real.sin y * Real.sin y) by
    rw [hx, ← hc]; ring]
  generalize Real.sin y * Real.sin y = s at hs0 hs1
  generalize Real.cos (q - p) = u at hu1 hu2
  generalize Real.cos (q + p) = v at hv1 hv2
  constructor
  · nlinarith [mul_nonneg (sub_nonneg.2 hu1) (sub_nonneg.2 hs1),
      mul_nonneg (by linarith : (0:ℝ) ≤ 1 + v) hs0]
  · nlinarith [mul_nonneg (by linarith : (0:ℝ) ≤ 1 + u) (sub_nonneg.2 hs1),
      mul_nonneg (sub_nonneg.2 hv1) hs0]

/-- The intermediate value `a` lies in `[0, 1]` for every pair of coordinates. -/
theorem haversineA_mem (a b : Coordinate) : 0 ≤ haversineA a b ∧ haversineA a b ≤ 1 := by
  unfold haversineA
  have h := half_angle_bounds (a.latitude * Real.pi / 180) (b.latitude * Real.pi / 180)
    ((b.longitude - a.longitude) * Real.pi / 180 / 2)
  have e : (b.latitude - a.latitude) * Real.pi / 180 / 2 =
      (b.latitude * Real.pi / 180 - a.latitude * Real.pi / 180) / 2 := by ring
  simp only [e]
  exact h

/-- In the closed first quadrant `atan2` is non-negative. -/
theorem atan2_nonneg_of_nonneg {y x : ℝ} (hy : 0 ≤ y) (hx : 0 ≤ x) : 0 ≤ atan2 y x := by
  unfold atan2
  have hx' : ¬ x < 0 := not_lt.2 hx
  have hy' : ¬ y < 0 := not_lt.2 hy
  by_cases h1 : 0 < x
  · rw [if_pos h1]
    have h := Real.arctan_strictMono.monotone (div_nonneg hy hx)
    rwa [Real.arctan_zero] at h
  · rw [if_neg h1, if_neg hx']
    by_cases h3 : 0 < y
    · rw [if_pos h3]
      exact div_nonneg Real.pi_pos.le (by norm_num)
    · rw [if_neg h3, if_neg hy']

/-- On `[0, π/2]`, `atan2` recovers the angle from its sine and cosine. -/
theorem atan2_sin_cos {t : ℝ} (h0 : 0 ≤ t) (h1 : t ≤ Real.pi / 2) :
    atan2 (Real.sin t) (Real.cos t) = t := by
  unfold atan2
  rcases eq_or_lt_of_le h1 with h | h
  · subst h
    simp [Real.cos_pi_div_two, Real.sin_pi_div_two]
  · have hc : 0 < Real.cos t := Real.cos_pos_of_mem_Ioo ⟨by linarith, h⟩
    rw [if_pos hc, ← Real.tan_eq_sin_div_cos, Real.arctan_tan (by linarith) h]


/-- Two points on the equator: the result is the arc length `R * |d| * π / 180`. -/
theorem haversine_equator (lon1 lon2 : ℝ) (h : |lon2 - lon1| ≤ 180) :
    haversine ⟨0, lon1⟩ ⟨0, lon2⟩ = 6371000 * |lon2 - lon1| * Real.pi / 180 := by
  have hpi := Real.pi_pos
  set x : ℝ := (lon2 - lon1) * Real.pi / 180 / 2 with hx
  have hxabs : |x| = |lon2 - lon1| * Real.pi / 180 / 2 := by
    rw [hx, abs_div, abs_div, abs_mul, abs_of_pos hpi]
    norm_num
  have hx0 : 0 ≤ |x| := abs_nonneg x
  have hx1 : |x| ≤ Real.pi / 2 := by
    rw [hxabs]
    nlinarith
  have ha : haversineA ⟨0, lon1⟩ ⟨0, lon2⟩ = Real.sin x * Real.sin x := by
    simp [haversineA, hx]
  have hs : Real.sqrt (Real.sin x * Real.sin x) = Real.sin |x| := by
    rw [Real.sqrt_mul_self_eq_abs]
    rcases abs_cases x with ⟨e, hn⟩ | ⟨e, hn⟩
    · rw [e, abs_of_nonneg]
      exact Real.sin_nonneg_of_nonneg_of_le_pi hn (by rw [e] at hx1; linarith)
    · rw [e, Real.sin_neg, abs_of_nonpos]
      exact Real.sin_nonpos_of_nonnpos_of_neg_pi_le hn.le (by rw [e] at hx1; linarith)
  have hc : Real.sqrt (1 - Real.sin x * Real.sin x) = Real.cos |x| := by
    have e : 1 - Real.sin x * Real.sin x = Real.cos x * Real.cos x := by
      have := Real.sin_sq_add_cos_sq x
      nlinarith
    rw [e, Real.sqrt_mul_self_eq_abs, Real.cos_abs, abs_of_nonneg]
    rw [← Real.cos_abs]
    exact Real.cos_nonneg_of_mem_Icc ⟨by linarith, hx1⟩
  unfold haversine
  simp only [ha, hs, hc]
  rw [atan2_sin_cos hx0 hx1, hxabs]
  ring

/-! ## Claims on the distance engine -/

/-- In exact real arithmetic, for all coordinates: the intermediate value `a` lies in
`[0, 1]`, `haversine a b ≥ 0`, and `haversine a a = 0`. This is the formula, not the
double-precision program: see `haversine_antipodal_nan`. -/
theorem haversine_nonneg_and_self (a b : Coordinate) :
    (0 ≤ haversineA a b ∧ haversineA a b ≤ 1) ∧
      0 ≤ haversine a b ∧ haversine a a = 0 := by
  refine ⟨haversineA_mem a b, ?_, ?_⟩
  · unfold haversine
    have h := atan2_nonneg_of_nonneg (Real.sqrt_nonneg (haversineA a b))
      (Real.sqrt_nonneg (1 - haversineA a b))
    simp only
    positivity
  · have ha : haversineA a a = 0 := by simp [haversineA]
    simp [haversine, ha, atan2]

/-- In exact real arithmetic the value handed to lines 19-21 never makes a square root
fail, and the result is the one of `haversine`. -/
theorem haversineOfA_exact (a b : Coordinate) :
    haversineOfA (haversineA a b) = some (haversine a b) := by
  obtain ⟨h0, h1⟩ := haversineA_mem a b
  have e1 : sqrtJS (haversineA a b) = some (Real.sqrt (haversineA a b)) := by
    simp [sqrtJS, not_lt.2 h0]
  have e2 : sqrtJS (1 - haversineA a b) = some (Real.sqrt (1 - haversineA a b)) := by
    have h : ¬ (1 - haversineA a b < 0) := by linarith
    simp [sqrtJS, h]
  simp only [haversineOfA, e1, e2, haversine]

/-- C5, the code at the antipodal pair `(-12, -180)`, `(12, 0)`. In exact arithmetic the
intermediate value `a` is exactly 1 there, the edge of the domain of `sqrt (1 - a)`.
Lines 19-21 return `NaN` for every `a` above 1, in particular for `1 + 2^(-52)`, the
double next above 1 (printed `1.0000000000000002`), which is what lines 16-18 yield at
this pair in double precision. -/
theorem haversine_antipodal_nan :
    haversineA ⟨-12, -180⟩ ⟨12, 0⟩ = 1 ∧
      (∀ a : ℝ, 1 < a → haversineOfA a = none) ∧
      haversineOfA (1 + 1 / 2 ^ 52) = none := by
  have hgen : ∀ a : ℝ, 1 < a → haversineOfA a = none := by
    intro a ha
    have h0 : ¬ a < 0 := by linarith
    have h1 : 1 - a < 0 := by linarith
    simp [haversineOfA, sqrtJS, h0, h1]
  refine ⟨?_, hgen, hgen _ (by norm_num)⟩
  have e1 : ((12 : ℝ) - -12) * Real.pi / 180 / 2 = 12 * Real.pi / 180 := by ring
  have e2 : ((0 : ℝ) - -180) * Real.pi / 180 / 2 = Real.pi / 2 := by ring
  have e3 : (-12 : ℝ) * Real.pi / 180 = -(12 * Real.pi / 180) := by ring
  simp only [haversineA, e1, e2, e3, Real.cos_neg, Real.sin_pi_div_two, mul_one]
  have h := Real.sin_sq_add_cos_sq (12 * Real.pi / 180)
  nlinarith [h]

/-- C6. Symmetry: `haversine a b = haversine b a` for all coordinates, exactly, over
the reals. -/
theorem haversine_symm (a b : Coordinate) : haversine a b = haversine b a := by
  have h : haversineA a b = haversineA b a := by
    unfold haversineA
    have e1 : (b.latitude - a.latitude) * Real.pi / 180 / 2 =
        -((a.latitude - b.latitude) * Real.pi / 180 / 2) := by ring
    have e2 : (b.longitude - a.longitude) * Real.pi / 180 / 2 =
        -((a.longitude - b.longitude) * Real.pi / 180 / 2) := by ring
    simp only [e1, e2, Real.sin_neg]
    ring
  unfold haversine
  rw [h]

/-- C7. Two points on the equator whose longitudes differ by `d` degrees, `|d| ≤ 180`:
`haversine` is exactly `R * |d| * π / 180` with `R = 6371000`; and the distance from
`(0, 0)` to `(0, 1)` is within 50 m of 111195 m. -/
theorem haversine_equator_arc (lon1 lon2 : ℝ) (h : |lon2 - lon1| ≤ 180) :
    haversine ⟨0, lon1⟩ ⟨0, lon2⟩ = 6371000 * |lon2 - lon1| * Real.pi / 180 ∧
      |haversine ⟨0, 0⟩ ⟨0, 1⟩ - 111195| ≤ 50 := by
  refine ⟨haversine_equator lon1 lon2 h, ?_⟩
  rw [haversine_equator 0 1 (by norm_num)]
  have h1 := Real.pi_gt_d6
  have h2 := Real.pi_lt_d6
  rw [abs_le]
  constructor <;> norm_num <;> linarith

/-- C7 at the longitudes 0 and 1. -/
theorem haversine_equator_arc_witness :
    |(1 : ℝ) - 0| ≤ 180 ∧
      haversine ⟨0, 0⟩ ⟨0, 1⟩ = 6371000 * |(1 : ℝ) - 0| * Real.pi / 180 ∧
      |haversine ⟨0, 0⟩ ⟨0, 1⟩ - 111195| ≤ 50 :=
  ⟨by norm_num, haversine_equator_arc 0 1 (by norm_num)⟩

/-! ## Claim on the elapsed-time format -/

/-- Below sixty, the conditional zero followed by the decimal digits is the two-digit
rendering. -/
theorem pad_eq_twoDigits (k : Nat) (hk : k < 60) :
    (if k < 10 then "0" else "") ++ toString k = twoDigits k := by
  interval_cases k <;> decide

/-- C8. For every non-negative integer `n`, with `h = n / 3600`, `m = n % 3600 / 60`,
`s = n % 60`: `formatTime n` is the `H:MM:SS` rendering of `h`, `m`, `s` (hours and
their colon exactly when `h > 0`, minutes and seconds zero-padded to two digits),
`m, s < 60`, `3600 h + 60 m + s = n`; and `formatTime 3661 = "1:01:01"`,
`formatTime 59 = "00:59"`. -/
theorem formatTime_renders_hms (n : Nat) :
    formatTime n = renderHMS (n / 3600) (n % 3600 / 60) (n % 60) ∧
      n % 3600 / 60 < 60 ∧ n % 60 < 60 ∧
      3600 * (n / 3600) + 60 * (n % 3600 / 60) + n % 60 = n ∧
      formatTime 3661 = "1:01:01" ∧ formatTime 59 = "00:59" := by
  have hm : n % 3600 / 60 < 60 := by omega
  have hs : n % 60 < 60 := by omega
  refine ⟨?_, hm, hs, by omega, by decide, by decide⟩
  unfold formatTime renderHMS
  simp only [String.append_assoc]
  rw [← pad_eq_twoDigits _ hm, ← pad_eq_twoDigits _ hs]
  simp only [String.append_assoc]
  rfl

/-! ## Lemmas on the tracking controller -/

/-- Running a sequence that starts with `e` is a step followed by the rest. -/
theorem run_cons (st : HomeState) (e : Event) (es : List Event) :
    run st (e :: es) = run (step st e) es := rfl

/-- What a held subscription does with a list of samples: the samples are appended to
`route`, the last one becomes `previousLocation`, and the distance grows by the
distances measured from the captured position; nothing else changes. -/
theorem run_samples (captured : Option Coordinate) (samples : List Coordinate) :
    ∀ st : HomeState, st.locationSubscription = some { captured := captured } →
      (run st (samples.map Event.sample)).route = st.route ++ samples ∧
      (run st (samples.map Event.sample)).totalDistance =
        st.totalDistance + capturedDistance captured samples ∧
      (run st (samples.map Event.sample)).previousLocation =
        (samples.getLast?).or st.previousLocation ∧
      (run st (samples.map Event.sample)).elapsedTime = st.elapsedTime ∧
      (run st (samples.map Event.sample)).tracking = st.tracking ∧
      (run st (samples.map Event.sample)).paused = st.paused := by
  induction samples with
  | nil => intro st _; simp [run, capturedDistance]
  | cons s rest ih =>
    intro st hsub
    have hstep : step st (Event.sample s) = watchCallback captured s st := by
      simp [step, hsub]
    have hsub' : (watchCallback captured s st).locationSubscription =
        some { captured := captured } := by
      cases captured <;> simpa [watchCallback] using hsub
    obtain ⟨h1, h2, h3, h4, h5, h6⟩ := ih (watchCallback captured s st) hsub'
    simp only [List.map_cons, run_cons, hstep]
    refine ⟨?_, ?_, ?_, ?_, ?_, ?_⟩
    · rw [h1]; cases captured <;> simp [watchCallback]
    · rw [h2]; cases captured <;> simp [watchCallback, capturedDistance, add_assoc]
    · rw [h3]
      have hp : (watchCallback captured s st).previousLocation = some s := by
        cases captured <;> simp [watchCallback]
      rw [hp]
      cases rest with
      | nil => simp
      | cons r rest' =>
        rw [List.getLast?_cons_cons,
          List.getLast?_eq_getLast (r :: rest') (List.cons_ne_nil _ _)]
        simp
    · rw [h4]; cases captured <;> simp [watchCallback]
    · rw [h5]; cases captured <;> simp [watchCallback]
    · rw [h6]; cases captured <;> simp [watchCallback]

/-- A callback that captured no position adds no distance. -/
theorem capturedDistance_none (samples : List Coordinate) :
    capturedDistance none samples = 0 := by
  induction samples with
  | nil => rfl
  | cons s rest ih => simp [capturedDistance, ih]

/-- With no interval set and no subscription held, ticks and samples leave the state as
it is. -/
theorem run_ticks_samples_idle (events : List Event)
    (hev : ∀ e ∈ events, e.isTickOrSample = true) :
    ∀ st : HomeState, st.timerRef = false → st.locationSubscription = none →
      run st events = st := by
  induction events with
  | nil => intro st _ _; rfl
  | cons e rest ih =>
    intro st ht hs
    have he : e.isTickOrSample = true := hev e (List.mem_cons_self _ _)
    have hstep : step st e = st := by
      cases e <;> simp_all [Event.isTickOrSample, step]
    rw [run_cons, hstep]
    exact ih (fun e' h => hev e' (List.mem_cons_of_mem _ h)) st ht hs

/-- No event shortens `route`. -/
theorem step_route_length (st : HomeState) (e : Event) :
    st.route.length ≤ (step st e).route.length := by
  cases e with
  | mount granted c => cases granted <;> simp [step, mountEffect]
  | start confirmed => cases confirmed <;> simp [step, startTracking]
  | stop => simp only [step, stopTracking]; split <;> simp
  | pause => simp only [step, pauseTracking]; split <;> simp
  | resume => simp [step, resumeTracking]
  | save => simp [step, saveRoute]
  | tick => simp only [step]; split <;> simp [timerCallback]
  | sample s =>
    simp only [step]
    split
    · rename_i sub _
      cases h : sub.captured <;> simp [watchCallback]
    · simp

/-- The invariant of `previousLocation`: unset, or the last element of `route`. -/
theorem step_previousLocation (st : HomeState) (e : Event)
    (h : st.previousLocation = none ∨ st.previousLocation = st.route.getLast?) :
    (step st e).previousLocation = none ∨
      (step st e).previousLocation = (step st e).route.getLast? := by
  cases e with
  | mount granted c => cases granted <;> simpa [step, mountEffect] using h
  | start confirmed => cases confirmed <;> simpa [step, startTracking] using h
  | stop => simp only [step, stopTracking]; split <;> simpa using h
  | pause => simp only [step, pauseTracking]; split <;> simpa using h
  | resume => simpa [step, resumeTracking] using h
  | save => simpa [step, saveRoute] using h
  | tick => simp only [step]; split <;> simpa [timerCallback] using h
  | sample s =>
    simp only [step]
    split
    · rename_i sub _
      right
      cases h : sub.captured <;> simp [watchCallback]
    · exact h

/-- The invariant of `previousLocation` along a run. -/
theorem run_previousLocation (events : List Event) :
    ∀ st : HomeState,
      (st.previousLocation = none ∨ st.previousLocation = st.route.getLast?) →
      ((run st events).previousLocation = none ∨
        (run st events).previousLocation = (run st events).route.getLast?) := by
  induction events with
  | nil => intro st h; exact h
  | cons e rest ih =>
    intro st h
    rw [run_cons]
    exact ih (step st e) (step_previousLocation st e h)

/-! ## Claims on the tracking controller -/

/-- C1, the code at the scenario. After a confirmed Start from the mount state the
callback has captured `previousLocation = null`, so for every list of samples the
accumulated distance stays 0. At the samples `(0,0)`, `(0,0.001)`, `(0,0.002)`: the
route is the three samples and `previousLocation` the last one, the sum of `haversine`
over consecutive samples is within 5% of 222.4 m, and `totalDistance` is 0, which is
not within 5% of 222.4 m. -/
theorem scenario_totalDistance_stays_zero :
    (∀ samples : List Coordinate,
      (run initialState (Event.start true :: samples.map Event.sample)).route = samples ∧
      (run initialState (Event.start true :: samples.map Event.sample)).totalDistance = 0) ∧
    (run initialState (Event.start true :: scenarioPath.map Event.sample)).route.length = 3 ∧
    (run initialState (Event.start true :: scenarioPath.map Event.sample)).previousLocation =
      some ⟨0, 0.002⟩ ∧
    |specTotalDistance scenarioPath - 222.4| ≤ 0.05 * 222.4 ∧
    (run initialState (Event.start true :: scenarioPath.map Event.sample)).totalDistance = 0 ∧
    ¬ |(run initialState (Event.start true :: scenarioPath.map Event.sample)).totalDistance
        - 222.4| ≤ 0.05 * 222.4 := by
  have hsub : (step initialState (Event.start true)).locationSubscription =
      some { captured := none } := rfl
  have hgen : ∀ samples : List Coordinate,
      (run initialState (Event.start true :: samples.map Event.sample)).route = samples ∧
      (run initialState (Event.start true :: samples.map Event.sample)).totalDistance = 0 := by
    intro samples
    obtain ⟨h1, h2, -⟩ := run_samples none samples _ hsub
    rw [run_cons]
    refine ⟨?_, ?_⟩
    · rw [h1]; simp [step, startTracking, initialState]
    · rw [h2, capturedDistance_none]; simp [step, startTracking, initialState]
  obtain ⟨-, -, h3, -⟩ := run_samples none scenarioPath _ hsub
  have hz := (hgen scenarioPath).2
  refine ⟨hgen, ?_, ?_, ?_, hz, ?_⟩
  · rw [(hgen scenarioPath).1]; rfl
  · rw [run_cons, h3]; simp [scenarioPath]
  · have e1 := haversine_equator 0 0.001 (by rw [abs_le]; constructor <;> norm_num)
    have e2 := haversine_equator 0.001 0.002 (by rw [abs_le]; constructor <;> norm_num)
    have a1 : |(0.001 : ℝ) - 0| = 0.001 := by rw [abs_of_nonneg] <;> norm_num
    have a2 : |(0.002 : ℝ) - 0.001| = 0.001 := by rw [abs_of_nonneg] <;> norm_num
    rw [a1] at e1
    rw [a2] at e2
    simp only [scenarioPath, specTotalDistance, e1, e2]
    have h1 := Real.pi_gt_d2
    have h2 := Real.pi_lt_d2
    rw [abs_le]
    constructor <;> norm_num <;> linarith
  · rw [hz, zero_sub, abs_neg, abs_of_pos (by norm_num : (0 : ℝ) < 222.4)]
    norm_num

/-- C2, counterexample. In the Active state reached by Start, the sample `(0,0)` and a
tick, `stopTracking` leaves `route = [(0,0)]`, `previousLocation = (0,0)` and
`elapsedTime = 1`: the session is not reset. -/
theorem stopTracking_keeps_session :
    status activeExample = TrackingState.Active ∧
      (stopTracking activeExample).route = [⟨0, 0⟩] ∧
      (stopTracking activeExample).route ≠ [] ∧
      (stopTracking activeExample).previousLocation = some ⟨0, 0⟩ ∧
      (stopTracking activeExample).elapsedTime = 1 := by
  refine ⟨rfl, rfl, ?_, rfl, rfl⟩
  rw [show (stopTracking activeExample).route = [⟨0, 0⟩] from rfl]
  simp

/-- C2, amended. For every state that holds a location subscription (every Active state
whose subscription is established is one), after `stopTracking` the status is Idle
(`tracking = false`, `paused = false`), the subscription is released and the interval
cleared, and `route`, `previousLocation`, `totalDistance`, `elapsedTime` keep their
values. -/
theorem stopTracking_releases_and_keeps (st : HomeState) (sub : Subscription)
    (hs : st.locationSubscription = some sub) :
    status (stopTracking st) = TrackingState.Idle ∧
      (stopTracking st).tracking = false ∧ (stopTracking st).paused = false ∧
      (stopTracking st).locationSubscription = none ∧ (stopTracking st).timerRef = false ∧
      (stopTracking st).route = st.route ∧
      (stopTracking st).previousLocation = st.previousLocation ∧
      (stopTracking st).totalDistance = st.totalDistance ∧
      (stopTracking st).elapsedTime = st.elapsedTime := by
  simp [stopTracking, hs, status]

/-- C2, amended, at the Active state reached by Start, one sample and one tick. -/
theorem stopTracking_releases_and_keeps_witness :
    activeExample.locationSubscription = some { captured := none } ∧
      status (stopTracking activeExample) = TrackingState.Idle ∧
      (stopTracking activeExample).route = activeExample.route ∧
      (stopTracking activeExample).elapsedTime = activeExample.elapsedTime :=
  have h := stopTracking_releases_and_keeps activeExample { captured := none } rfl
  ⟨rfl, h.1, h.2.2.2.2.2.1, h.2.2.2.2.2.2.2.2⟩

/-- C3, counterexample. In the Paused state reached by Start then Pause (no subscription
held), `stopTracking` leaves the status Paused and `tracking = true`: the status is
not Idle. -/
theorem stopTracking_paused_stays_paused :
    status pausedExample = TrackingState.Paused ∧
      pausedExample.locationSubscription = none ∧ pausedExample.timerRef = false ∧
      (stopTracking pausedExample).tracking = true ∧
      status (stopTracking pausedExample) = TrackingState.Paused ∧
      status (stopTracking pausedExample) ≠ TrackingState.Idle :=
  ⟨rfl, rfl, rfl, rfl, rfl, by decide⟩

/-- C3, amended. For every state with `tracking = true`, `paused = true` and no
subscription held, `stopTracking` changes nothing: the state is the same and the
status stays Paused. -/
theorem stopTracking_paused_noop (st : HomeState) (ht : st.tracking = true)
    (hp : st.paused = true) (hs : st.locationSubscription = none) :
    stopTracking st = st ∧ status (stopTracking st) = TrackingState.Paused := by
  have h : stopTracking st = st := by simp [stopTracking, hs]
  refine ⟨h, ?_⟩
  rw [h]
  simp [status, ht, hp]

/-- C3, amended, at the Paused state reached by Start then Pause. -/
theorem stopTracking_paused_noop_witness :
    pausedExample.tracking = true ∧ pausedExample.paused = true ∧
      pausedExample.locationSubscription = none ∧
      stopTracking pausedExample = pausedExample ∧
      status (stopTracking pausedExample) = TrackingState.Paused :=
  ⟨rfl, rfl, rfl, stopTracking_paused_noop pausedExample rfl rfl rfl⟩

/-- C4, counterexample. In the Paused state reached by Start then Pause the status is
not Active and yet the "Gem Rute" button is disabled. -/
theorem save_disabled_when_paused :
    status pausedExample = TrackingState.Paused ∧
      status pausedExample ≠ TrackingState.Active ∧
      saveDisabled pausedExample = true :=
  ⟨rfl, by decide, rfl⟩

/-- C4, amended. The "Gem Rute" button is enabled exactly in the states whose status is
Idle and disabled exactly in those whose status is Active or Paused; and `saveRoute`
leaves the whole state, so `route`, `previousLocation`, `totalDistance`, `elapsedTime`,
`tracking` and `paused`, unchanged. -/
theorem save_enabled_iff_idle (st : HomeState) :
    (saveDisabled st = false ↔ status st = TrackingState.Idle) ∧
      (saveDisabled st = true ↔
        status st = TrackingState.Active ∨ status st = TrackingState.Paused) ∧
      (saveRoute st).1 = st := by
  refine ⟨?_, ?_, rfl⟩ <;>
    cases ht : st.tracking <;> cases hp : st.paused <;> simp [saveDisabled, status, ht, hp]

/-- C9. For every Active state that holds a location subscription, after
`pauseTracking` the status is Paused (`tracking = true`, `paused = true`), no
subscription is held and the interval is cleared, `route`, `previousLocation`,
`totalDistance` and `elapsedTime` are unchanged, and every sequence of ticks and samples
leaves the paused state as it is. -/
theorem pauseTracking_preserves (st : HomeState) (sub : Subscription)
    (hA : status st = TrackingState.Active) (hs : st.locationSubscription = some sub) :
    status (pauseTracking st) = TrackingState.Paused ∧
      (pauseTracking st).tracking = true ∧ (pauseTracking st).paused = true ∧
      (pauseTracking st).locationSubscription = none ∧
      (pauseTracking st).timerRef = false ∧
      (pauseTracking st).route = st.route ∧
      (pauseTracking st).previousLocation = st.previousLocation ∧
      (pauseTracking st).totalDistance = st.totalDistance ∧
      (pauseTracking st).elapsedTime = st.elapsedTime ∧
      ∀ events : List Event, (∀ e ∈ events, e.isTickOrSample = true) →
        run (pauseTracking st) events = pauseTracking st := by
  have ht : st.tracking = true := by
    cases h1 : st.tracking <;> cases h2 : st.paused <;> simp [status, h1, h2] at hA ⊢
  have hsub : (pauseTracking st).locationSubscription = none := by
    simp [pauseTracking, hs]
  have htim : (pauseTracking st).timerRef = false := by
    simp [pauseTracking, hs]
  refine ⟨?_, ?_, ?_, hsub, htim, ?_, ?_, ?_, ?_, ?_⟩
  · simp [pauseTracking, hs, status, ht]
  · simp [pauseTracking, hs, ht]
  · simp [pauseTracking, hs]
  · simp [pauseTracking, hs]
  · simp [pauseTracking, hs]
  · simp [pauseTracking, hs]
  · simp [pauseTracking, hs]
  · intro events hev
    exact run_ticks_samples_idle events hev (pauseTracking st) htim hsub

/-- C9 at the Active state reached by Start, one sample and one tick, followed after
the pause by a tick, a sample and another tick. -/
theorem pauseTracking_preserves_witness :
    status activeExample = TrackingState.Active ∧
      activeExample.locationSubscription = some { captured := none } ∧
      status (pauseTracking activeExample) = TrackingState.Paused ∧
      (pauseTracking activeExample).route = activeExample.route ∧
      (pauseTracking activeExample).elapsedTime = activeExample.elapsedTime ∧
      run (pauseTracking activeExample) [Event.tick, Event.sample ⟨0, 1⟩, Event.tick] =
        pauseTracking activeExample :=
  have h := pauseTracking_preserves activeExample { captured := none } rfl rfl
  ⟨rfl, rfl, h.1, h.2.2.2.2.2.1, h.2.2.2.2.2.2.2.2.1,
    h.2.2.2.2.2.2.2.2.2 _ (by simp [Event.isTickOrSample])⟩

/-- C10. In every state reached from the mount state by a sequence of events (Start
confirmed or declined, Pause, Resume, Stop, Save, ticks, samples, the mount effect),
`previousLocation` is unset or equal to the last element of `route`, and no event,
Stop included, makes `route` shorter. -/
theorem session_invariant (events : List Event) :
    ((run initialState events).previousLocation = none ∨
        (run initialState events).previousLocation =
          (run initialState events).route.getLast?) ∧
      ∀ e : Event,
        (run initialState events).route.length ≤
          (step (run initialState events) e).route.length :=
  ⟨run_previousLocation events initialState (Or.inl rfl),
    fun e => step_route_length (run initialState events) e⟩

end AiFigma
